import Mathlib

set_option maxRecDepth 8192

/-!
Verification of the response-normalization layer of the Desmos Code Hub
repository.  The embedding translates the TypeScript sources
(`AIService.ts` in its two variants, `CodeGenerator.tsx`) into executable
Lean definitions over `List Char` / `String`.

JavaScript regular expressions used by `parseAIResponse` are embedded as
deterministic scanners; each scanner mirrors the exact regex from the
source, whose alternatives are first-character disjoint, so no
backtracking semantics are lost.
-/

/-- JavaScript `\s` restricted to ASCII: space, tab, newline, carriage
return, vertical tab, form feed (the characters relevant to this code). -/
def jsIsSpace (c : Char) : Bool :=
  c = ' ' || c = '\t' || c = '\n' || c = '\r' || c = '\x0b' || c = '\x0c'

/-- JSON insignificant whitespace per RFC 8259 (used by `JSON.parse`). -/
def jsonWs (c : Char) : Bool :=
  c = ' ' || c = '\t' || c = '\n' || c = '\r'

/-- ASCII lower-casing, as JS case-insensitive matching does on ASCII. -/
def lowerChar (c : Char) : Char :=
  if 'A' ≤ c && c ≤ 'Z' then Char.ofNat (c.toNat + 32) else c

/-- ASCII upper-casing, as `String.prototype.toUpperCase` does on ASCII. -/
def upperChar (c : Char) : Char :=
  if 'a' ≤ c && c ≤ 'z' then Char.ofNat (c.toNat - 32) else c

/-- `[A-Z]` under the JS `i` flag: any ASCII letter. -/
def isLetterB (c : Char) : Bool :=
  (65 ≤ c.toNat && c.toNat ≤ 90) || (97 ≤ c.toNat && c.toNat ≤ 122)

/-- ASCII digit. -/
def isDigitC (c : Char) : Bool :=
  48 ≤ c.toNat && c.toNat ≤ 57

/-- `String.prototype.trim`: strip whitespace from both ends. -/
def jsTrim (l : List Char) : List Char :=
  ((l.dropWhile jsIsSpace).reverse.dropWhile jsIsSpace).reverse

/-- `s.split('\n')[0]`: the text before the first newline. -/
def firstLine (l : List Char) : List Char :=
  l.takeWhile (fun c => !(c = '\n'))

/-- Whether `pat` occurs as a contiguous subsequence of `l`. -/
def containsSub (pat l : List Char) : Bool :=
  l.tails.any (fun t => pat.isPrefixOf t)

/-- `/(w1|w2|...)/i.test(s)`: some alternative (given lower-cased) occurs
in `s`, case-insensitively. -/
def testAny (pats : List (List Char)) (s : List Char) : Bool :=
  pats.any (fun p => containsSub p (s.map lowerChar))

/-- `s.replace(/^[^\n]+\n/, '')`: drop a nonempty first line together
with its newline when one exists, otherwise leave `s` unchanged. -/
def dropFirstLine (s : List Char) : List Char :=
  match s with
  | [] => []
  | c :: _ =>
    if c = '\n' then s
    else
      let fl := s.takeWhile (fun c => !(c = '\n'))
      match s.drop fl.length with
      | '\n' :: r => r
      | _ => s

/-- Case-insensitive literal prefix matching: strip `pat` (given in lower
case) off the front of `l`, comparing after ASCII lower-casing. -/
def stripPrefixCI : List Char → List Char → Option (List Char)
  | [], l => some l
  | _ :: _, [] => none
  | p :: ps, c :: cs => if lowerChar c = p then stripPrefixCI ps cs else none

/-- The `:?` part of the answer regex: drop one leading colon when
present. -/
def stripColon (l : List Char) : List Char :=
  match l with
  | ':' :: r => r
  | _ => l

/-- One attempt of `/correct answer:?\s*([A-Z])/i` anchored at the head of
`m`: the literal, an optional colon, any whitespace, then a letter.  The
regex is deterministic here (see the module comment), so a direct scan is
faithful. -/
def caMatchAt (m : List Char) : Option Char :=
  (stripPrefixCI ("correct answer".toList) m).bind (fun rest =>
    match (stripColon rest).dropWhile jsIsSpace with
    | c :: _ => if isLetterB c then some c else none
    | [] => none)

/-- `response.match(/correct answer:?\s*([A-Z])/i)`: leftmost match,
returning the captured letter. -/
def findCA : List Char → Option Char
  | [] => none
  | l@(_ :: rest) =>
    match caMatchAt l with
    | some c => some c
    | none => findCA rest

/-- Declarative description of one occurrence of the
`correct answer:?\s*([A-Z])` pattern (case-insensitive) at the head of
`m`, capturing letter `c`. -/
def caSpecAt (m : List Char) (c : Char) : Prop :=
  ∃ pre colon sp suf,
    m = pre ++ colon ++ sp ++ c :: suf ∧
    pre.map lowerChar = "correct answer".toList ∧
    (colon = [] ∨ colon = [':']) ∧
    sp.all jsIsSpace ∧
    isLetterB c

/-- Separator body of the section split
`/(?:^|\n)#+\s+|(?:^|\n)\d+\.\s+/`: a run of `#` or a run of digits
followed by `.`, then at least one whitespace character.  Returns the
number of characters consumed (not counting a leading newline). -/
def sepBodyLen (l : List Char) : Option Nat :=
  match l with
  | [] => none
  | c :: _ =>
    if c = '#' then
      let hs := l.takeWhile (fun x => x = '#')
      let sp := (l.drop hs.length).takeWhile jsIsSpace
      if sp.length = 0 then none else some (hs.length + sp.length)
    else if isDigitC c then
      let ds := l.takeWhile isDigitC
      match l.drop ds.length with
      | '.' :: r =>
        let sp := r.takeWhile jsIsSpace
        if sp.length = 0 then none else some (ds.length + 1 + sp.length)
      | _ => none
    else none

/-- Separator body of the list-item split
`/(?:\n|^)(?:\d+\.|\*|\-)\s+/`: a numbered, starred or dashed marker
followed by at least one whitespace character. -/
def innerBodyLen (l : List Char) : Option Nat :=
  match l with
  | [] => none
  | c :: rest =>
    if isDigitC c then
      let ds := l.takeWhile isDigitC
      match l.drop ds.length with
      | '.' :: r =>
        let sp := r.takeWhile jsIsSpace
        if sp.length = 0 then none else some (ds.length + 1 + sp.length)
      | _ => none
    else if c = '*' || c = '-' then
      let sp := rest.takeWhile jsIsSpace
      if sp.length = 0 then none else some (1 + sp.length)
    else none

/-- Separator body of the paragraph split `/\n\n+/`: after the leading
newline consumed by the scanner, at least one further newline. -/
def parBodyLen (l : List Char) : Option Nat :=
  let nl := l.takeWhile (fun c => c = '\n')
  if nl.length = 0 then none else some nl.length

/-- Scanner core shared by all three `String.prototype.split` calls of
`parseAIResponse`, with explicit fuel (any fuel at least the input length
gives the scanner's value; `splitGo` below supplies it).  Separators start
either at a newline (consumed as part of the separator) or, for the entry
wrapper, at position 0.  `cur` is the piece being accumulated, `acc` the
finished pieces. -/
def splitGoF (body : List Char → Option Nat) :
    Nat → List Char → List (List Char) → List Char → List (List Char)
  | _, cur, acc, [] => acc ++ [cur]
  | 0, cur, acc, _ :: _ => acc ++ [cur]
  | fuel + 1, cur, acc, c :: rest =>
    if c = '\n' then
      match body rest with
      | some n => splitGoF body fuel [] (acc ++ [cur]) (rest.drop n)
      | none => splitGoF body fuel (cur ++ ['\n']) acc rest
    else splitGoF body fuel (cur ++ [c]) acc rest

/-- The scanner with sufficient fuel. -/
def splitGo (body : List Char → Option Nat) (cur : List Char)
    (acc : List (List Char)) (l : List Char) : List (List Char) :=
  splitGoF body (l.length + 1) cur acc l

/-- `s.split(re)` for the two section-like regexes, whose separators may
also match at position 0 via the `^` alternative. -/
def jsSplitS (body : List Char → Option Nat) (l : List Char) :
    List (List Char) :=
  match body l with
  | some n => splitGo body [] [[]] (l.drop n)
  | none => splitGo body [] [] l

/-- The section split `response.split(/(?:^|\n)#+\s+|(?:^|\n)\d+\.\s+/)`. -/
def splitTop (l : List Char) : List (List Char) :=
  jsSplitS sepBodyLen l

/-- The list-item split
`section.split(/(?:\n|^)(?:\d+\.|\*|\-)\s+/)`. -/
def splitInner (l : List Char) : List (List Char) :=
  jsSplitS innerBodyLen l

/-- The paragraph split `response.split(/\n\n+/)`, whose separator always
begins with a literal newline. -/
def splitPar (l : List Char) : List (List Char) :=
  splitGo parBodyLen [] [] l

/-- Keywords of `/explanation|solution|solving|steps/i`. -/
def explKeys : List (List Char) :=
  ["explanation".toList, "solution".toList, "solving".toList, "steps".toList]

/-- Keywords of `/answer|correct|misconception|mistake|error/i`. -/
def forbidKeys : List (List Char) :=
  ["answer".toList, "correct".toList, "misconception".toList,
   "mistake".toList, "error".toList]

/-- Keywords of `/misconception|mistake|error|confusion/i`. -/
def misKeys : List (List Char) :=
  ["misconception".toList, "mistake".toList, "error".toList,
   "confusion".toList]

/-- Keywords of `/misconception|mistake|error/i` (paragraph fallback). -/
def parKeys : List (List Char) :=
  ["misconception".toList, "mistake".toList, "error".toList]

/-- The `MathProblemAnalysis` record of `AIService.ts`, at the character
level used by the free-text parser. -/
structure AnalysisL where
  explanation : List Char
  misconceptions : List (List Char)
  correctAnswer : Option Char
deriving DecidableEq

/-- Writing up to three extracted items over the initial
`['', '', '']`: slot `i` holds item `i` when present, `''` otherwise. -/
def pad3 (xs : List (List Char)) : List (List Char) :=
  [xs.getD 0 [], xs.getD 1 [], xs.getD 2 []]

/-- The misconception list as it stands after the list-item stage of
`parseAIResponse` (before the paragraph fallback): the first section whose
first line matches the misconception keywords is split on list-item
markers, the header segment dropped, blank items removed, items trimmed,
and the first three written over `['', '', '']`. -/
def misFromSections (sections : List (List Char)) : List (List Char) :=
  match sections.find? (fun s => testAny misKeys (firstLine s)) with
  | some s =>
    pad3 ((((splitInner s).drop 1).filter
      (fun i => !(jsTrim i).isEmpty)).map jsTrim)
  | none => [[], [], []]

/-- The explanation as selected by `parseAIResponse`: the first section
whose first line matches the explanation keywords, with its heading line
stripped and trimmed; otherwise the first section longer than 100
characters whose first line avoids the answer/misconception keywords,
trimmed; otherwise empty. -/
def explFromSections (sections : List (List Char)) : List Char :=
  match sections.find? (fun s => testAny explKeys (firstLine s)) with
  | some s => jsTrim (dropFirstLine s)
  | none =>
    match sections.find?
        (fun s => !testAny forbidKeys (firstLine s) && decide (100 < s.length)) with
    | some s => jsTrim s
    | none => []

/-- `parseAIResponse` from `AIService.ts` (identical in both variants):
the free-text fallback of the response normalizer. -/
def parseAIResponseL (l : List Char) : AnalysisL :=
  let ca := (findCA l).map upperChar
  let sections := splitTop l
  let expl := explFromSections sections
  let mis1 := misFromSections sections
  let mis :=
    if mis1.all (fun m => m.isEmpty) then
      let paras := (splitPar l).filter
        (fun p => decide (50 < (jsTrim p).length) && testAny parKeys p)
      pad3 ((paras.take 3).map jsTrim)
    else mis1
  ⟨expl, mis, ca⟩

/-- The `MathProblemAnalysis` record at the `String` level, mirroring the
TypeScript interface. -/
structure MathProblemAnalysis where
  explanation : String
  misconceptions : List String
  correctAnswer : Option String
deriving DecidableEq

/-- String-level wrapper of the free-text parser. -/
def parseAIResponse (s : String) : MathProblemAnalysis :=
  let r := parseAIResponseL s.toList
  ⟨⟨r.explanation⟩, r.misconceptions.map (fun m => ⟨m⟩),
   r.correctAnswer.map (fun c => ⟨[c]⟩)⟩

/-- JavaScript JSON values as produced by `JSON.parse`.  Numbers are
modelled as integers (the only numeric literals relevant to this
program). -/
inductive Json where
  | null
  | bool (b : Bool)
  | num (i : Int)
  | str (s : String)
  | arr (elems : List Json)
  | obj (members : List (String × Json))

/-- JavaScript property access `v[k]`.  `none` models a thrown
`TypeError` (accessing a property of `null`); `some none` models
`undefined`; object lookup takes the last binding, as later duplicate
keys win in `JSON.parse`. -/
def jsGet (v : Json) (k : String) : Option (Option Json) :=
  match v with
  | .null => none
  | .obj ms => some ((ms.reverse.find? (fun p => p.1 = k)).map (fun p => p.2))
  | _ => some none

/-- JavaScript truthiness of a parsed JSON value. -/
def jsTruthy (v : Json) : Bool :=
  match v with
  | .null => false
  | .bool b => b
  | .num i => !(i = 0)
  | .str s => !(s = "")
  | .arr _ => true
  | .obj _ => true

/-- `x || d` on a possibly-undefined JavaScript value. -/
def jsOr (o : Option Json) (d : Json) : Json :=
  match o with
  | some v => if jsTruthy v then v else d
  | none => d

/-- The record built by the structured branch of `generateAIContent`,
with JavaScript-typed fields (the code does not validate shapes). -/
structure JsAnalysis where
  explanation : Json
  misconceptions : Json
  correctAnswer : Option Json

/-- The padding loop
`while (result.misconceptions.length < 3) result.misconceptions.push('')`:
on an array it pads with empty strings up to length 3; on a string
shorter than 3 the `push` call throws (`none`); any other value has no
numeric `.length`, so `undefined < 3` is `false` and the loop is
skipped. -/
def step1Pad (m : Json) : Option Json :=
  match m with
  | .arr xs => some (.arr (xs ++ List.replicate (3 - xs.length) (.str "")))
  | .str s => if s.length < 3 then none else some m
  | v => some v

/-- Step 1 of the response normalizer: the body of the `try` block in
`generateAIContent` after `JSON.parse` succeeded with value `v`.
`none` models a throw inside the `try`, which the `catch` resolves by
falling back to `parseAIResponse`. -/
def step1 (v : Json) : Option JsAnalysis := do
  let e ← jsGet v "explanation"
  let m ← jsGet v "misconceptions"
  let c ← jsGet v "correctAnswer"
  let mis ← step1Pad (jsOr m (.arr []))
  pure ⟨jsOr e (.str ""), mis, c⟩

/-- Parsed string body: the characters of a JSON string after the opening
quote, decoding escapes, up to and past the closing quote. -/
def parseStrBody : List Char → Option (List Char × List Char)
  | [] => none
  | '"' :: r => some ([], r)
  | '\\' :: e :: r =>
    match e with
    | '"' => (parseStrBody r).map (fun p => ('"' :: p.1, p.2))
    | '\\' => (parseStrBody r).map (fun p => ('\\' :: p.1, p.2))
    | '/' => (parseStrBody r).map (fun p => ('/' :: p.1, p.2))
    | 'b' => (parseStrBody r).map (fun p => ('\x08' :: p.1, p.2))
    | 'f' => (parseStrBody r).map (fun p => ('\x0c' :: p.1, p.2))
    | 'n' => (parseStrBody r).map (fun p => ('\n' :: p.1, p.2))
    | 'r' => (parseStrBody r).map (fun p => ('\r' :: p.1, p.2))
    | 't' => (parseStrBody r).map (fun p => ('\t' :: p.1, p.2))
    | 'u' =>
      match r with
      | a :: b :: c :: d :: r2 =>
        match hexVal a, hexVal b, hexVal c, hexVal d with
        | some ha, some hb, some hc, some hd =>
          (parseStrBody r2).map (fun p =>
            (Char.ofNat (((ha * 16 + hb) * 16 + hc) * 16 + hd) :: p.1, p.2))
        | _, _, _, _ => none
      | _ => none
    | _ => none
  | c :: r =>
    if c.toNat < 32 then none
    else (parseStrBody r).map (fun p => (c :: p.1, p.2))
where
  hexVal (c : Char) : Option Nat :=
    if 48 ≤ c.toNat ∧ c.toNat ≤ 57 then some (c.toNat - 48)
    else if 97 ≤ c.toNat ∧ c.toNat ≤ 102 then some (c.toNat - 87)
    else if 65 ≤ c.toNat ∧ c.toNat ≤ 70 then some (c.toNat - 55)
    else none

/-- Skip JSON whitespace. -/
def skipWs (l : List Char) : List Char :=
  l.dropWhile jsonWs

/-- Parse an optionally signed integer literal (the numeric fragment of
JSON relevant to this program; a following `.`, `e` or `E` is rejected). -/
def parseIntLit (l : List Char) : Option (Int × List Char) :=
  let (sign, l1) : Int × List Char :=
    match l with
    | '-' :: r => (-1, r)
    | _ => (1, l)
  let ds := l1.takeWhile isDigitC
  if ds.length = 0 then none
  else
    match l1.drop ds.length with
    | '.' :: _ => none
    | 'e' :: _ => none
    | 'E' :: _ => none
    | rest =>
      some (sign * (ds.foldl (fun a c => a * 10 + (c.toNat - 48)) 0 : Nat),
            rest)

mutual

/-- Recursive-descent model of `JSON.parse`, value production.  The fuel
only needs to exceed the nesting depth; `jsonParse` supplies the input
length. -/
def parseVal : Nat → List Char → Option (Json × List Char)
  | 0, _ => none
  | fuel + 1, l =>
    match skipWs l with
    | '{' :: r =>
      (match skipWs r with
       | '}' :: r2 => some (.obj [], r2)
       | _ => (parseMembers fuel (skipWs r) []).map
           (fun p => (.obj p.1, p.2)))
    | '[' :: r =>
      (match skipWs r with
       | ']' :: r2 => some (.arr [], r2)
       | _ => (parseElems fuel (skipWs r) []).map
           (fun p => (.arr p.1, p.2)))
    | '"' :: r => (parseStrBody r).map (fun p => (.str ⟨p.1⟩, p.2))
    | 't' :: r =>
      if ("rue".toList).isPrefixOf r then some (.bool true, r.drop 3)
      else none
    | 'f' :: r =>
      if ("alse".toList).isPrefixOf r then some (.bool false, r.drop 4)
      else none
    | 'n' :: r =>
      if ("ull".toList).isPrefixOf r then some (.null, r.drop 3)
      else none
    | l2 => (parseIntLit l2).map (fun p => (.num p.1, p.2))

/-- Object member list after `{`, at least one member expected. -/
def parseMembers (fuel : Nat) (l : List Char)
    (acc : List (String × Json)) : Option (List (String × Json) × List Char) :=
  match fuel with
  | 0 => none
  | fuel + 1 =>
    match l with
    | '"' :: r =>
      match parseStrBody r with
      | none => none
      | some (key, r2) =>
        match skipWs r2 with
        | ':' :: r3 =>
          match parseVal fuel r3 with
          | none => none
          | some (v, r4) =>
            match skipWs r4 with
            | ',' :: r5 => parseMembers fuel (skipWs r5) (acc ++ [(⟨key⟩, v)])
            | '}' :: r5 => some (acc ++ [(⟨key⟩, v)], r5)
            | _ => none
        | _ => none
    | _ => none

/-- Array element list after `[`, at least one element expected. -/
def parseElems (fuel : Nat) (l : List Char)
    (acc : List Json) : Option (List Json × List Char) :=
  match fuel with
  | 0 => none
  | fuel + 1 =>
    match parseVal fuel l with
    | none => none
    | some (v, r) =>
      match skipWs r with
      | ',' :: r2 => parseElems fuel (skipWs r2) (acc ++ [v])
      | ']' :: r2 => some (acc ++ [v], r2)
      | _ => none

end

/-- `JSON.parse`: a single value surrounded by optional whitespace. -/
def jsonParse (s : String) : Option Json :=
  match parseVal (s.length + 2) s.toList with
  | some (v, rem) => if (skipWs rem).isEmpty then some v else none
  | none => none

/-- Injection of a free-text parse into the JavaScript-typed record: the
fallback path builds exactly string fields. -/
def injectAnalysis (r : AnalysisL) : JsAnalysis :=
  ⟨.str ⟨r.explanation⟩,
   .arr (r.misconceptions.map (fun m => .str ⟨m⟩)),
   r.correctAnswer.map (fun c => .str ⟨[c]⟩)⟩

/-- The response normalizer of `generateAIContent` applied to the raw
message content: `JSON.parse` plus record building and padding inside a
`try`, with `parseAIResponse` as the `catch` fallback. -/
def normalizeContent (content : String) : JsAnalysis :=
  match jsonParse content with
  | some v =>
    match step1 v with
    | some r => r
    | none => injectAnalysis (parseAIResponseL content.toList)
  | none => injectAnalysis (parseAIResponseL content.toList)

/-- Value-level model of `JSON.stringify` on a normalized
`MathProblemAnalysis` record: insertion-ordered keys, with
`correctAnswer` omitted when it is `undefined` (as `JSON.stringify`
drops properties whose value is `undefined`). -/
def analysisToJson (e : String) (ms : List String) (c : Option String) :
    Json :=
  .obj ([("explanation", .str e),
         ("misconceptions", .arr (ms.map (fun m => .str m)))] ++
        (match c with
         | some a => [("correctAnswer", .str a)]
         | none => []))

/-- Length of the misconception field when it is an array. -/
def misLen (r : JsAnalysis) : Option Nat :=
  match r.misconceptions with
  | .arr xs => some xs.length
  | _ => none

/-- The default system prompt for `questionType = "multiple-choice"` in
the current `AIService` variant (braces written as escapes). -/
def mcPrompt : String :=
  "You are an expert math teacher analyzing a multiple-choice math problem. \n    First, identify the correct answer choice (A, B, C, D, etc.), and explain why this is the correct answer.\n    Then, provide a clear, detailed explanation of how to solve this problem correctly step-by-step.\n    Finally, analyze EACH incorrect answer choice and explain the specific misconception or error that leads to that wrong answer.\n    \n    Format your response as JSON with the following structure:\n    \x7b\n      \"correctAnswer\": \"letter of correct option (A, B, C, etc.)\",\n      \"explanation\": \"detailed explanation of solution approach\",\n      \"misconceptions\": [\n        \"explanation of why option 1 is incorrect and what misconception it represents\",\n        \"explanation of why option 2 is incorrect and what misconception it represents\",\n        \"explanation of why option 3 is incorrect and what misconception it represents\"\n      ]\n    \x7d"

/-- The default system prompt for `questionType = "equation"`. -/
def eqPrompt : String :=
  "You are an expert math teacher analyzing an equation problem where students need to provide a correct equation as their answer.\n    First, identify the correct equation that solves this problem.\n    Then, provide a clear, detailed explanation with **bold titles for each step** of how to solve this problem correctly.\n    Finally, identify THREE common misconceptions students might have when solving this type of equation problem.\n    \n    Format your response as JSON with the following structure:\n    \x7b\n      \"correctAnswer\": \"the correct equation\",\n      \"explanation\": \"detailed explanation of solution approach with **bold titles for each step**\",\n      \"misconceptions\": [\n        \"explanation of misconception 1 when solving this equation\",\n        \"explanation of misconception 2 when solving this equation\",\n        \"explanation of misconception 3 when solving this equation\"\n      ]\n    \x7d"

/-- The system-prompt selection of `generateAIContent` (current
variant): `let systemPrompt = prompt || ""` followed by unconditional
overwrites keyed on `questionType`. -/
def systemPromptFor (prompt : String) (questionType : String) : String :=
  let base := if prompt = "" then "" else prompt
  if questionType = "multiple-choice" then mcPrompt
  else if questionType = "equation" then eqPrompt
  else base

/-- `text.replace(/"/g, '\\"')` in `generateCode`: each double quote
becomes backslash-quote. -/
def escapeQuotes (l : List Char) : List Char :=
  (l.map (fun c => if c = '"' then ['\\', '"'] else [c])).flatten

/-- The fixed text of the explanation snippet before the interpolated,
escaped explanation (from `generateCode` in `CodeGenerator.tsx`). -/
def expCodeHead (n : Nat) : List Char :=
  ("hidden: when (submit_button.pressCount>0 and q" ++ toString n ++
   "_btn_ans.pressCount>0) false otherwise true\ncontent: \"").toList

/-- The rendered explanation snippet `expCode`. -/
def expCode (n : Nat) (explanation : List Char) : List Char :=
  expCodeHead n ++ escapeQuotes explanation ++ ['"']

/-- The fixed text of a misconception snippet before the interpolated,
escaped misconception. -/
def errHelpHead (n : Nat) : List Char :=
  ("hidden: when (submit_button.pressCount>0 and q" ++ toString n ++
   "_btn_ans.pressCount>0 and not(q" ++ toString n ++
   "_mc.matchesKey)) false otherwise true\ncontent: \"").toList

/-- The rendered misconception snippet `err_<i>_help`. -/
def errHelpCode (n : Nat) (m : List Char) : List Char :=
  errHelpHead n ++ escapeQuotes m ++ ['"']

/-- `errorData.error?.message || 'Failed to generate content'`. -/
def providerMsg (errMsg : Option String) : String :=
  match errMsg with
  | some m => if m = "" then "Failed to generate content" else m
  | none => "Failed to generate content"

/-- The response handling of `generateAIContent` once the HTTP exchange
has completed: non-success status throws the provider's message (generic
fallback), absent or empty `choices` throws, and otherwise the first
choice's content is normalized.  `Except.error` models the thrown
rejection surfaced to the caller. -/
def handleResponse (ok : Bool) (errMsg : Option String)
    (choices : Option (List String)) : Except String JsAnalysis :=
  if ok then
    match choices with
    | some (c :: _) => .ok (normalizeContent c)
    | _ => .error "No content generated"
  else .error (providerMsg errMsg)

/-- Whether a line begins with a numbered-list marker head: one or more
digits immediately followed by a dot.  Used to state that a paragraph
does not itself open a `\d+\.\s+` section separator. -/
def startsNumDotB (l : List Char) : Bool :=
  let ds := l.takeWhile isDigitC
  !(ds.length = 0) && ((l.drop ds.length).head? = some '.')

theorem splitGoF_irrel (body : List Char → Option Nat) :
    ∀ f1 f2 cur acc l, l.length ≤ f1 → l.length ≤ f2 →
      splitGoF body f1 cur acc l = splitGoF body f2 cur acc l := by
  intro f1
  induction f1 with
  | zero =>
    intro f2 cur acc l h1 _
    have : l = [] := List.eq_nil_of_length_eq_zero (Nat.le_zero.mp h1)
    subst this
    cases f2 <;> rfl
  | succ n ih =>
    intro f2 cur acc l h1 h2
    cases l with
    | nil => cases f2 <;> rfl
    | cons c rest =>
      cases f2 with
      | zero => simp at h2
      | succ m =>
        simp only [List.length_cons, Nat.succ_le_succ_iff] at h1 h2
        simp only [splitGoF]
        by_cases hc : c = '\n'
        · simp only [if_pos hc]
          cases hb : body rest with
          | some k =>
            exact ih m [] (acc ++ [cur]) (rest.drop k)
              (le_trans (by simp only [List.length_drop]; omega) h1)
              (le_trans (by simp only [List.length_drop]; omega) h2)
          | none => exact ih m (cur ++ ['\n']) acc rest h1 h2
        · simp only [if_neg hc]
          exact ih m (cur ++ [c]) acc rest h1 h2

theorem splitGo_nil (body : List Char → Option Nat) (cur acc) :
    splitGo body cur acc [] = acc ++ [cur] := rfl

theorem splitGo_cons_ne (body : List Char → Option Nat) (cur acc c rest)
    (h : c ≠ '\n') :
    splitGo body cur acc (c :: rest) = splitGo body (cur ++ [c]) acc rest := by
  simp only [splitGo, List.length_cons, splitGoF, if_neg h]

theorem splitGo_nl_none (body : List Char → Option Nat) (cur acc rest)
    (h : body rest = none) :
    splitGo body cur acc ('\n' :: rest) =
      splitGo body (cur ++ ['\n']) acc rest := by
  simp [splitGo, splitGoF, h]

theorem splitGo_nl_some (body : List Char → Option Nat) (cur acc rest n)
    (h : body rest = some n) :
    splitGo body cur acc ('\n' :: rest) =
      splitGo body [] (acc ++ [cur]) (rest.drop n) := by
  simp only [splitGo, List.length_cons, splitGoF, if_pos rfl, h, if_true]
  exact splitGoF_irrel body (rest.length + 1) ((rest.drop n).length + 1) _ _ _
    (by simp [List.length_drop]; omega) (by omega)

theorem splitGo_seg (body : List Char → Option Nat) :
    ∀ seg cur acc rest, (∀ c ∈ seg, c ≠ '\n') →
      splitGo body cur acc (seg ++ rest) =
        splitGo body (cur ++ seg) acc rest := by
  intro seg
  induction seg with
  | nil => intro cur acc rest _; simp
  | cons c s ih =>
    intro cur acc rest h
    have hc : c ≠ '\n' := h c (List.mem_cons_self c s)
    rw [List.cons_append, splitGo_cons_ne body cur acc c (s ++ rest) hc,
      ih (cur ++ [c]) acc rest (fun x hx => h x (List.mem_cons_of_mem c hx))]
    simp

theorem dropWhile_append_all {p : Char → Bool} {l1 l2 : List Char}
    (h : ∀ c ∈ l1, p c = true) :
    (l1 ++ l2).dropWhile p = l2.dropWhile p := by
  induction l1 with
  | nil => simp
  | cons c s ih =>
    simp only [List.cons_append, List.dropWhile_cons,
      h c (List.mem_cons_self c s), if_true]
    exact ih (fun x hx => h x (List.mem_cons_of_mem c hx))

theorem jsTrim_append_space (l : List Char) (c : Char)
    (h : jsIsSpace c = true) : jsTrim (l ++ [c]) = jsTrim l := by
  unfold jsTrim
  rw [List.dropWhile_append]
  cases he : (l.dropWhile jsIsSpace).isEmpty with
  | true =>
    simp only [he, if_true]
    simp [List.dropWhile_cons, h, List.isEmpty_iff.mp he]
  | false =>
    simp only [he, Bool.false_eq_true, if_false, List.reverse_append,
      List.reverse_cons, List.reverse_nil, List.nil_append,
      List.singleton_append, List.dropWhile_cons, h, if_true]

/-- C1 (amended): on the structured path, a valid JSON object with `k`
misconceptions yields a record whose misconceptions list is the supplied
list padded with empty strings up to 3 — length `max k 3`.  Fewer than 3
are padded; more than 3 are all kept (the code never truncates). -/
theorem C1_structured_misconceptions_padded (s : String) (e : String) (ms : List String) (c : Option Json)
    (h : jsonParse s = some (Json.obj
      ([("explanation", Json.str e),
        ("misconceptions", Json.arr (ms.map (fun m => Json.str m)))] ++
       (match c with
        | some j => [("correctAnswer", j)]
        | none => [])))) :
    (normalizeContent s).misconceptions =
      Json.arr (ms.map (fun m => Json.str m) ++
        List.replicate (3 - ms.length) (Json.str "")) ∧
    misLen (normalizeContent s) = some (max ms.length 3) := by
  rcases c with _ | j <;>
  · unfold normalizeContent
    rw [h]
    simp [step1, jsGet, List.find?, jsOr, jsTruthy, step1Pad, misLen]
    omega

/-- C1 counterexample: a JSON input with four misconceptions produces a
record whose misconceptions list has length 4, so the claimed truncation
to exactly 3 does not happen. -/
theorem C1_counterexample :
    misLen (normalizeContent
      "\x7b\"explanation\":\"e\",\"misconceptions\":[\"a\",\"b\",\"c\",\"d\"]\x7d") =
      some 4 := by
  rfl

/-- C1 witness: a concrete one-misconception JSON input is padded to
length 3. -/
theorem C1_witness :
    (normalizeContent
        "\x7b\"explanation\":\"e\",\"misconceptions\":[\"a\"],\"correctAnswer\":\"B\"\x7d").misconceptions =
      Json.arr [Json.str "a", Json.str "", Json.str ""] ∧
    misLen (normalizeContent
        "\x7b\"explanation\":\"e\",\"misconceptions\":[\"a\"],\"correctAnswer\":\"B\"\x7d") =
      some 3 :=
  C1_structured_misconceptions_padded _ "e" ["a"] (some (Json.str "B")) (by rfl)

/-- C10: an input parsing to a non-null JSON scalar takes the structured
path and yields the default record (empty explanation, three empty
misconceptions, no correctAnswer); the free-text heuristics are never
consulted, even when the scalar is a string containing recognizable
patterns. -/
theorem C10_scalar_structured_default (s : String) (v : Json)
    (h : jsonParse s = some v)
    (hv : (∃ b, v = Json.bool b) ∨ (∃ i, v = Json.num i) ∨
          (∃ t, v = Json.str t)) :
    normalizeContent s =
      ⟨Json.str "", Json.arr [Json.str "", Json.str "", Json.str ""], none⟩ := by
  unfold normalizeContent
  rw [h]
  rcases hv with ⟨b, rfl⟩ | ⟨i, rfl⟩ | ⟨t, rfl⟩ <;>
    simp [step1, jsGet, jsOr, step1Pad]

/-- C10 witness: a quoted string containing "Correct answer: C" and a
bare number both yield the default record. -/
theorem C10_witness :
    normalizeContent "\"Correct answer: C\"" =
      ⟨Json.str "", Json.arr [Json.str "", Json.str "", Json.str ""], none⟩ ∧
    normalizeContent "42" =
      ⟨Json.str "", Json.arr [Json.str "", Json.str "", Json.str ""], none⟩ :=
  ⟨C10_scalar_structured_default _ (Json.str "Correct answer: C") (by rfl)
      (Or.inr (Or.inr ⟨_, rfl⟩)),
   C10_scalar_structured_default _ (Json.num 42) (by rfl) (Or.inr (Or.inl ⟨_, rfl⟩))⟩

/-- C7: Step 1 applied to the JSON serialization of a normalized record
(string explanation, at least 3 string misconceptions, optional string
answer; `correctAnswer` omitted when absent) returns the same record —
explanation, misconceptions and the (absent) correctAnswer are all
preserved. -/
theorem C7_step1_idempotent (e : String) (ms : List String) (c : Option String)
    (h : 3 ≤ ms.length) :
    step1 (analysisToJson e ms c) =
      some ⟨Json.str e, Json.arr (ms.map (fun m => Json.str m)),
            c.map (fun a => Json.str a)⟩ := by
  rcases c with _ | a <;>
  · simp [analysisToJson, step1, jsGet, List.find?, jsOr, jsTruthy, step1Pad,
      Nat.sub_eq_zero_of_le h]
    intro he
    exact he.symm

/-- C7 witness: round trip of a concrete normalized record. -/
theorem C7_witness :
    step1 (analysisToJson "exp" ["a", "b", "c"] (some "A")) =
      some ⟨Json.str "exp", Json.arr [Json.str "a", Json.str "b", Json.str "c"],
            some (Json.str "A")⟩ :=
  C7_step1_idempotent "exp" ["a", "b", "c"] (some "A") (by decide)

/-- C3 (amended): the current `generateAIContent` overwrites the system
prompt with the questionType-keyed default for "multiple-choice" and
"equation" regardless of the prompt override; the override is used only
for other question types. -/
theorem C3_prompt_selection (p qt : String) :
    (qt = "multiple-choice" → systemPromptFor p qt = mcPrompt) ∧
    (qt = "equation" → systemPromptFor p qt = eqPrompt) ∧
    (qt ≠ "multiple-choice" → qt ≠ "equation" → systemPromptFor p qt = p) := by
  refine ⟨fun h => ?_, fun h => ?_, fun h1 h2 => ?_⟩
  · subst h; simp [systemPromptFor]
  · subst h; simp [systemPromptFor]
  · simp only [systemPromptFor, if_neg h1, if_neg h2]
    by_cases hp : p = "" <;> simp [hp]

/-- C3 counterexample: a non-empty prompt override together with
questionType "multiple-choice" still produces the default prompt, not the
override, refuting the claim that the default is used only when the
override is absent or empty. -/
theorem C3_counterexample :
    systemPromptFor "Use my custom instructions" "multiple-choice" = mcPrompt ∧
    "Use my custom instructions" ≠ "" ∧
    mcPrompt ≠ "Use my custom instructions" := by
  refine ⟨rfl, by decide, by decide⟩

/-- C3 witness: concrete instantiations of the amended selection rule. -/
theorem C3_witness :
    systemPromptFor "x" "multiple-choice" = mcPrompt ∧
    systemPromptFor "x" "equation" = eqPrompt ∧
    systemPromptFor "x" "open-ended" = "x" :=
  ⟨(C3_prompt_selection "x" "multiple-choice").1 rfl,
   (C3_prompt_selection "x" "equation").2.1 rfl,
   (C3_prompt_selection "x" "open-ended").2.2 (by decide) (by decide)⟩

/-- C9: the response handling raises exactly on non-success status (with
the provider message or the generic fallback) or on absent/empty choices,
and a success response with a choice always yields a normalized record —
normalization is total, so malformed content never raises. -/
theorem C9_error_handling (ok : Bool) (errMsg : Option String)
    (choices : Option (List String)) :
    (ok = false → handleResponse ok errMsg choices = .error (providerMsg errMsg)) ∧
    (ok = true → (choices = none ∨ choices = some []) →
      handleResponse ok errMsg choices = .error "No content generated") ∧
    (ok = true → ∀ c cs, choices = some (c :: cs) →
      handleResponse ok errMsg choices = .ok (normalizeContent c)) := by
  refine ⟨fun h => ?_, fun h hc => ?_, fun h c cs hc => ?_⟩
  · subst h; rfl
  · subst h
    rcases hc with rfl | rfl <;> rfl
  · subst h; subst hc; rfl

/-- C9 witness: concrete error and success outcomes. -/
theorem C9_witness :
    handleResponse false (some "Provider exploded") (some ["x"]) =
      .error "Provider exploded" ∧
    handleResponse false none none = .error "Failed to generate content" ∧
    handleResponse true (some "ignored") (some []) =
      .error "No content generated" ∧
    handleResponse true none (some ["not json at all"]) =
      .ok (normalizeContent "not json at all") :=
  ⟨(C9_error_handling false (some "Provider exploded") (some ["x"])).1 rfl,
   (C9_error_handling false none none).1 rfl,
   (C9_error_handling true (some "ignored") (some [])).2.1 rfl (Or.inr rfl),
   (C9_error_handling true none (some ["not json at all"])).2.2 rfl _ _ rfl⟩

theorem misFromSections_length (sections : List (List Char)) :
    (misFromSections sections).length = 3 := by
  unfold misFromSections
  cases sections.find? (fun s => testAny misKeys (firstLine s)) <;>
    simp [pad3]

theorem parse_mis_length (l : List Char) :
    (parseAIResponseL l).misconceptions.length = 3 := by
  unfold parseAIResponseL
  by_cases h : (misFromSections (splitTop l)).all (fun m => m.isEmpty) <;>
    simp [h, pad3, misFromSections_length]

/-- C4 (amended): the fallback always returns a record with exactly three
misconception slots, and for marker-free text longer than 100 characters
whose first line avoids both keyword sets the explanation is the trimmed
input.  (The unconditional non-empty-explanation clause of the claim is
refuted by the counterexample.) -/
theorem C4_fallback_explanation (l : List Char) :
    (parseAIResponseL l).misconceptions.length = 3 ∧
    (splitTop l = [l] →
     testAny explKeys (firstLine l) = false →
     testAny forbidKeys (firstLine l) = false →
     100 < l.length →
     (parseAIResponseL l).explanation = jsTrim l) := by
  refine ⟨parse_mis_length l, fun h1 h2 h3 h4 => ?_⟩
  show explFromSections (splitTop l) = jsTrim l
  rw [h1]
  unfold explFromSections
  simp [List.find?, h2, h3, h4]

/-- C4 counterexample: a marker-free text of more than 100 characters
whose first line contains "error" leaves the explanation empty, refuting
the claim that any input over 100 characters yields a non-empty
explanation. -/
theorem C4_counterexample :
    100 < ("error analysis shows that many students misapply the distributive property when expanding binomial products here").toList.length ∧
    splitTop ("error analysis shows that many students misapply the distributive property when expanding binomial products here").toList =
      [("error analysis shows that many students misapply the distributive property when expanding binomial products here").toList] ∧
    (parseAIResponseL ("error analysis shows that many students misapply the distributive property when expanding binomial products here").toList).explanation = [] := by
  refine ⟨by decide, by decide, by decide⟩

/-- C4 witness: a concrete marker-free text over 100 characters whose
explanation is the trimmed input and whose misconceptions have length 3. -/
theorem C4_witness :
    100 < ("This text talks at length about distributive reasoning without any of the trigger words appearing in its opening line whatsoever").toList.length ∧
    (parseAIResponseL ("This text talks at length about distributive reasoning without any of the trigger words appearing in its opening line whatsoever").toList).explanation =
      jsTrim ("This text talks at length about distributive reasoning without any of the trigger words appearing in its opening line whatsoever").toList ∧
    (parseAIResponseL ("This text talks at length about distributive reasoning without any of the trigger words appearing in its opening line whatsoever").toList).misconceptions.length = 3 :=
  ⟨by decide,
   (C4_fallback_explanation _).2 (by decide) (by decide) (by decide) (by decide),
   (C4_fallback_explanation _).1⟩

/-- C5 (amended): when the list-item stage produced only empty
misconceptions, the fallback splits the ENTIRE response (not the
misconceptions section) into blank-line paragraphs and keeps, in order and
up to 3, those whose trimmed length exceeds 50 AND which contain
misconception/mistake/error case-insensitively. -/
theorem C5_paragraph_fallback (l : List Char)
    (h : misFromSections (splitTop l) = [[], [], []]) :
    (parseAIResponseL l).misconceptions =
      pad3 ((((splitPar l).filter
        (fun p => decide (50 < (jsTrim p).length) && testAny parKeys p)).take 3).map
          jsTrim) := by
  show (if (misFromSections (splitTop l)).all (fun m => m.isEmpty) then _ else _) = _
  rw [h]
  rfl

/-- C5 counterexample: a response whose misconceptions section has no list
items and no long paragraph still gets a misconception — a long
keyword-bearing paragraph from OUTSIDE the section — refuting the claim
that the paragraphs are taken from the section. -/
theorem C5_counterexample :
    (splitTop ("Students should review this topic.\nMany students make an error with signs when distributing negatives over parentheses in expressions.\n\n## Misconceptions\nNothing useful here.").toList).find?
        (fun s => testAny misKeys (firstLine s)) =
      some ("Misconceptions\nNothing useful here.").toList ∧
    ((splitInner ("Misconceptions\nNothing useful here.").toList).drop 1) = [] ∧
    (parseAIResponseL ("Students should review this topic.\nMany students make an error with signs when distributing negatives over parentheses in expressions.\n\n## Misconceptions\nNothing useful here.").toList).misconceptions =
      [("Students should review this topic.\nMany students make an error with signs when distributing negatives over parentheses in expressions.").toList, [], []] ∧
    ("Students should review this topic.\nMany students make an error with signs when distributing negatives over parentheses in expressions.").toList ≠ [] := by
  refine ⟨by decide, by decide, by decide, by decide⟩

/-- C5 witness: the amended paragraph rule evaluated on a concrete
response. -/
theorem C5_witness :
    (parseAIResponseL ("Students should review this topic.\nMany students make an error with signs when distributing negatives over parentheses in expressions.\n\n## Misconceptions\nNothing useful here.").toList).misconceptions =
      pad3 ((((splitPar ("Students should review this topic.\nMany students make an error with signs when distributing negatives over parentheses in expressions.\n\n## Misconceptions\nNothing useful here.").toList).filter
        (fun p => decide (50 < (jsTrim p).length) && testAny parKeys p)).take 3).map
          jsTrim) :=
  C5_paragraph_fallback _ (by decide)

theorem escapeQuotes_cons (c : Char) (t : List Char) :
    escapeQuotes (c :: t) =
      (if c = '"' then ['\\', '"'] else [c]) ++ escapeQuotes t := by
  simp [escapeQuotes]

/-- C8: every double quote in the interpolated text is rendered as the
two-character sequence backslash-quote, every quote in the escaped region
is immediately preceded by a backslash (so none terminates the literal
early), and the rendered snippets factor exactly as fixed head, escaped
text, closing quote. -/
theorem C8_snippet_escaping (s : List Char) :
    ('"' ∈ s → ∃ l1 l2, escapeQuotes s = l1 ++ '\\' :: '"' :: l2) ∧
    (∀ l1 l2, escapeQuotes s = l1 ++ '"' :: l2 → ∃ l0, l1 = l0 ++ ['\\']) ∧
    (∀ n, expCode n s = expCodeHead n ++ escapeQuotes s ++ ['"']) ∧
    (∀ n, errHelpCode n s = errHelpHead n ++ escapeQuotes s ++ ['"']) := by
  refine ⟨?_, ?_, fun _ => rfl, fun _ => rfl⟩
  · intro hm
    induction s with
    | nil => cases hm
    | cons c t ih =>
      rw [escapeQuotes_cons]
      by_cases hc : c = '"'
      · exact ⟨[], escapeQuotes t, by simp [hc]⟩
      · have ht : '"' ∈ t := by
          rcases List.mem_cons.mp hm with h | h
          · exact absurd h.symm hc
          · exact h
        obtain ⟨l1, l2, he⟩ := ih ht
        exact ⟨c :: l1, l2, by simp [hc, he]⟩
  · induction s with
    | nil =>
      intro l1 l2 he
      simp [escapeQuotes] at he
    | cons c t ih =>
      intro l1 l2 he
      rw [escapeQuotes_cons] at he
      by_cases hc : c = '"'
      · rw [if_pos hc] at he
        match l1, he with
        | [], he => simp at he
        | [x], he =>
          simp at he
          exact ⟨[], by simp [he.1.symm]⟩
        | x :: y :: l1', he =>
          simp at he
          obtain ⟨l0, hl⟩ := ih l1' l2 he.2.2
          exact ⟨x :: y :: l0, by simp [hl]⟩
      · rw [if_neg hc] at he
        match l1, he with
        | [], he =>
          simp at he
          exact absurd he.1 hc
        | x :: l1', he =>
          simp at he
          obtain ⟨l0, hl⟩ := ih l1' l2 he.2
          exact ⟨x :: l0, by simp [hl]⟩

/-- C8 witness: escaping evaluated on a concrete quoted string. -/
theorem C8_witness :
    '"' ∈ ("say \"hi\" now").toList ∧
    (∃ l1 l2, escapeQuotes ("say \"hi\" now").toList =
      l1 ++ '\\' :: '"' :: l2) ∧
    expCode 1 ("say \"hi\" now").toList =
      expCodeHead 1 ++ escapeQuotes ("say \"hi\" now").toList ++ ['"'] :=
  ⟨by decide, (C8_snippet_escaping _).1 (by decide), (C8_snippet_escaping _).2.2.1 1⟩

theorem stripPrefixCI_complete :
    ∀ (pre r : List Char), stripPrefixCI (pre.map lowerChar) (pre ++ r) = some r := by
  intro pre
  induction pre with
  | nil => intro r; rfl
  | cons c p ih =>
    intro r
    simp only [List.map_cons, List.cons_append, stripPrefixCI, if_pos rfl]
    exact ih r

theorem stripPrefixCI_sound :
    ∀ (ps l r : List Char), stripPrefixCI ps l = some r →
      ∃ pre, l = pre ++ r ∧ pre.map lowerChar = ps := by
  intro ps
  induction ps with
  | nil =>
    intro l r h
    simp only [stripPrefixCI, Option.some.injEq] at h
    exact ⟨[], by simp [h]⟩
  | cons p ps' ih =>
    intro l r h
    cases l with
    | nil => simp [stripPrefixCI] at h
    | cons c cs =>
      simp only [stripPrefixCI] at h
      by_cases hc : lowerChar c = p
      · rw [if_pos hc] at h
        obtain ⟨pre', he, hm⟩ := ih cs r h
        exact ⟨c :: pre', by simp [he], by simp [hm, hc]⟩
      · rw [if_neg hc] at h
        cases h

theorem jsIsSpace_toNat {c : Char} (h : jsIsSpace c = true) : c.toNat ≤ 32 := by
  simp only [jsIsSpace, Bool.or_eq_true, decide_eq_true_eq] at h
  rcases h with ((((h | h) | h) | h) | h) | h <;> subst h <;> decide

theorem isLetterB_toNat {c : Char} (h : isLetterB c = true) : 65 ≤ c.toNat := by
  simp only [isLetterB, Bool.or_eq_true, Bool.and_eq_true,
    decide_eq_true_eq] at h
  rcases h with ⟨h1, _⟩ | ⟨h1, _⟩ <;> omega

theorem letter_not_space {c : Char} (h : isLetterB c = true) :
    jsIsSpace c = false := by
  cases hs : jsIsSpace c with
  | false => rfl
  | true =>
    have h2 := jsIsSpace_toNat hs
    have h1 := isLetterB_toNat h
    omega

theorem letter_ne_colon {c : Char} (h : isLetterB c = true) : c ≠ ':' := by
  intro he
  subst he
  cases h

theorem space_ne_colon {c : Char} (h : jsIsSpace c = true) : c ≠ ':' := by
  intro he
  subst he
  cases h

theorem all_takeWhile (p : Char → Bool) (l : List Char) :
    (l.takeWhile p).all p = true := by
  induction l with
  | nil => rfl
  | cons c t ih =>
    rw [List.takeWhile_cons]
    cases hc : p c with
    | false => rfl
    | true => simp [hc, ih]

theorem stripColon_split (l : List Char) :
    ∃ colon, (colon = [] ∨ colon = [':']) ∧ l = colon ++ stripColon l := by
  cases l with
  | nil => exact ⟨[], Or.inl rfl, rfl⟩
  | cons c r =>
    by_cases hc : c = ':'
    · subst hc
      exact ⟨[':'], Or.inr rfl, rfl⟩
    · refine ⟨[], Or.inl rfl, ?_⟩
      simp only [List.nil_append]
      unfold stripColon
      split
      · rename_i heq
        cases heq
        exact absurd rfl hc
      · rfl

theorem stripColon_of_head_ne (l : List Char) (h : l.head? ≠ some ':') :
    stripColon l = l := by
  cases l with
  | nil => rfl
  | cons c r =>
    unfold stripColon
    split
    · rename_i heq
      cases heq
      simp at h
    · rfl

theorem caMatchAt_sound (m : List Char) (c : Char)
    (h : caMatchAt m = some c) : caSpecAt m c := by
  unfold caMatchAt at h
  cases hs : stripPrefixCI ("correct answer".toList) m with
  | none => rw [hs] at h; cases h
  | some rest =>
    rw [hs, Option.some_bind] at h
    obtain ⟨pre, hm, hpre⟩ := stripPrefixCI_sound _ _ _ hs
    obtain ⟨colon, hcol, hrest⟩ := stripColon_split rest
    cases h3 : (stripColon rest).dropWhile jsIsSpace with
    | nil => rw [h3] at h; cases h
    | cons c' suf =>
      rw [h3] at h
      change (if isLetterB c' = true then some c' else none) = some c at h
      cases hl : isLetterB c' with
      | false => rw [hl] at h; simp at h
      | true =>
        rw [hl] at h
        simp only [if_true, Option.some.injEq] at h
        subst h
        refine ⟨pre, colon, (stripColon rest).takeWhile jsIsSpace, suf, ?_,
          hpre, hcol, all_takeWhile jsIsSpace (stripColon rest), hl⟩
        have h4 : stripColon rest =
            (stripColon rest).takeWhile jsIsSpace ++ (c' :: suf) := by
          rw [← h3, List.takeWhile_append_dropWhile]
        rw [hm]
        conv_lhs => rw [hrest, h4]
        simp [List.append_assoc]

theorem caMatchAt_complete (m : List Char) (c : Char)
    (hspec : caSpecAt m c) : caMatchAt m = some c := by
  obtain ⟨pre, colon, sp, suf, hm, hpre, hcol, hsp, hc⟩ := hspec
  subst hm
  have hsp' : ∀ x ∈ sp, jsIsSpace x = true := List.all_eq_true.mp hsp
  have hstrip : stripPrefixCI ("correct answer".toList)
      (pre ++ colon ++ sp ++ c :: suf) = some (colon ++ sp ++ c :: suf) := by
    have := stripPrefixCI_complete pre (colon ++ sp ++ c :: suf)
    rw [hpre] at this
    simpa [List.append_assoc] using this
  unfold caMatchAt
  rw [hstrip, Option.some_bind]
  have hcolon : stripColon (colon ++ sp ++ c :: suf) = sp ++ c :: suf := by
    rcases hcol with rfl | rfl
    · simp only [List.nil_append]
      apply stripColon_of_head_ne
      cases sp with
      | nil =>
        simpa using letter_ne_colon hc
      | cons s sp' =>
        simpa using space_ne_colon (hsp' s (List.mem_cons_self s sp'))
    · rfl
  rw [hcolon]
  have hdrop : (sp ++ c :: suf).dropWhile jsIsSpace = c :: suf := by
    rw [dropWhile_append_all hsp', List.dropWhile_cons,
      letter_not_space hc]
    simp
  rw [hdrop]
  change (if isLetterB c = true then some c else none) = some c
  rw [hc]
  simp

theorem findCA_sound (l : List Char) (c : Char) (h : findCA l = some c) :
    ∃ i, caSpecAt (l.drop i) c := by
  induction l with
  | nil => cases h
  | cons x rest ih =>
    unfold findCA at h
    cases hm : caMatchAt (x :: rest) with
    | some c0 =>
      rw [hm] at h
      cases h
      exact ⟨0, caMatchAt_sound _ _ hm⟩
    | none =>
      rw [hm] at h
      obtain ⟨i, hi⟩ := ih h
      exact ⟨i + 1, hi⟩

theorem findCA_complete (l : List Char)
    (h : ∃ i c, caSpecAt (l.drop i) c) : ∃ c', findCA l = some c' := by
  induction l with
  | nil =>
    obtain ⟨i, c, pre, colon, sp, suf, he, _, _, _, _⟩ := h
    simp at he
  | cons x rest ih =>
    obtain ⟨i, c, hi⟩ := h
    unfold findCA
    cases hm : caMatchAt (x :: rest) with
    | some c0 => exact ⟨c0, rfl⟩
    | none =>
      cases i with
      | zero =>
        rw [List.drop_zero] at hi
        exact absurd (caMatchAt_complete _ _ hi) (by rw [hm]; simp)
      | succ j =>
        exact ih ⟨j, c, by simpa using hi⟩

/-- C6: the fallback extracts `correctAnswer` exactly when the free text
contains the pattern "correct answer", optional colon, whitespace, then a
letter (any letter case), and records a matched letter uppercased;
when no occurrence exists the field is left unset. -/
theorem C6_correct_answer_extraction (l : List Char) :
    ((∀ i c, ¬ caSpecAt (l.drop i) c) →
      (parseAIResponseL l).correctAnswer = none) ∧
    (∀ i c, caSpecAt (l.drop i) c →
      ∃ c', (∃ j, caSpecAt (l.drop j) c') ∧
        (parseAIResponseL l).correctAnswer = some (upperChar c')) := by
  have hca : (parseAIResponseL l).correctAnswer = (findCA l).map upperChar := rfl
  constructor
  · intro h
    rw [hca]
    cases hf : findCA l with
    | none => rfl
    | some c =>
      obtain ⟨i, hi⟩ := findCA_sound l c hf
      exact absurd hi (h i c)
  · intro i c hi
    obtain ⟨c', hf⟩ := findCA_complete l ⟨i, c, hi⟩
    exact ⟨c', findCA_sound l c' hf, by rw [hca, hf]; rfl⟩

/-- C6 witness: "correct Answer: c" yields an uppercased extracted answer
and a pattern-free text yields none. -/
theorem C6_witness :
    (∃ c', (∃ j, caSpecAt (("correct Answer: c").toList.drop j) c') ∧
      (parseAIResponseL ("correct Answer: c").toList).correctAnswer =
        some (upperChar c')) ∧
    (parseAIResponseL ("no pattern here").toList).correctAnswer = none :=
  ⟨(C6_correct_answer_extraction ("correct Answer: c").toList).2 0 'c'
    ⟨"correct Answer".toList, [':'], [' '], [],
      by decide, by decide, Or.inr rfl, by decide, by decide⟩,
   (C6_correct_answer_extraction ("no pattern here").toList).1
    (by
      intro i c hspec
      have := caMatchAt_complete _ _ hspec
      have hn : caMatchAt (("no pattern here").toList.drop i) = none := by
        have hi : i ≤ 15 := by
          by_contra hgt
          push_neg at hgt
          rw [List.drop_eq_nil_of_le (by simpa using Nat.le_of_lt hgt)] at this
          cases this
        interval_cases i <;> decide
      rw [hn] at this
      cases this)⟩

theorem sepBodyLen_nl (x : List Char) : sepBodyLen ('\n' :: x) = none := by
  simp [sepBodyLen, isDigitC]

theorem sepBodyLen_star (x : List Char) : sepBodyLen ('*' :: x) = none := by
  simp [sepBodyLen, isDigitC]

theorem sepBodyLen_heading (c : Char) (x : List Char)
    (h2 : jsIsSpace c = false) :
    sepBodyLen ('#' :: '#' :: ' ' :: c :: x) = some 3 := by
  simp [sepBodyLen, List.takeWhile_cons, h2]
  decide

theorem innerBodyLen_letter (c : Char) (x : List Char)
    (h1 : isDigitC c = false) (h2 : ¬ c = '*') (h3 : ¬ c = '-') :
    innerBodyLen (c :: x) = none := by
  simp [innerBodyLen, h1, h2, h3]

theorem innerBodyLen_star (c : Char) (x : List Char)
    (h : jsIsSpace c = false) :
    innerBodyLen ('*' :: ' ' :: c :: x) = some 2 := by
  simp [innerBodyLen, isDigitC, List.takeWhile_cons, h]
  decide

theorem sepBodyLen_para (para w : List Char)
    (h1 : para.head? ≠ some '#') (h2 : startsNumDotB para = false) :
    sepBodyLen (para ++ '\n' :: w) = none := by
  cases para with
  | nil => exact sepBodyLen_nl w
  | cons c p =>
    have hc : ¬ c = '#' := by simpa using h1
    cases hd : isDigitC c with
    | false =>
      unfold sepBodyLen
      simp [hc, hd]
    | true =>
      have htw0 : (c :: p).takeWhile isDigitC = c :: p.takeWhile isDigitC := by
        rw [List.takeWhile_cons]
        simp [hd]
      have hds : (c :: (p ++ '\n' :: w)).takeWhile isDigitC =
          (c :: p).takeWhile isDigitC := by
        show ((c :: p) ++ '\n' :: w).takeWhile isDigitC = _
        rw [List.takeWhile_append]
        split
        · rename_i hlen
          have heq : (c :: p).takeWhile isDigitC = c :: p :=
            (List.takeWhile_prefix isDigitC).eq_of_length hlen
          rw [heq, List.takeWhile_cons]
          simp [isDigitC, heq]
        · rfl
      have hscrut : (c :: (p ++ '\n' :: w)).drop
          ((c :: (p ++ '\n' :: w)).takeWhile isDigitC).length =
          (c :: p).dropWhile isDigitC ++ '\n' :: w := by
        rw [hds]
        have h5 := List.drop_left ((c :: p).takeWhile isDigitC)
          ((c :: p).dropWhile isDigitC ++ '\n' :: w)
        have h6 : (c :: p).takeWhile isDigitC ++
            ((c :: p).dropWhile isDigitC ++ '\n' :: w) =
            c :: (p ++ '\n' :: w) := by
          rw [← List.append_assoc, List.takeWhile_append_dropWhile]
          rfl
        rw [h6] at h5
        exact h5
      have hdroptw : (c :: p).drop ((c :: p).takeWhile isDigitC).length =
          (c :: p).dropWhile isDigitC := by
        have h5 := List.drop_left ((c :: p).takeWhile isDigitC)
          ((c :: p).dropWhile isDigitC)
        rw [List.takeWhile_append_dropWhile] at h5
        exact h5
      have hnd : ((c :: p).dropWhile isDigitC).head? ≠ some '.' := by
        intro hcon
        have hlen0 : ¬ ((c :: p).takeWhile isDigitC).length = 0 := by
          rw [htw0]
          simp
        rw [← hdroptw] at hcon
        unfold startsNumDotB at h2
        rw [Bool.and_eq_false_iff] at h2
        rcases h2 with h2 | h2
        · simp only [Bool.not_eq_false'] at h2
          exact hlen0 (by simpa using h2)
        · rw [hcon] at h2
          simp at h2
      unfold sepBodyLen
      simp only [List.cons_append, if_neg hc, hd, if_true]
      rw [hscrut]
      cases hdw : (c :: p).dropWhile isDigitC with
      | nil =>
        simp only [List.nil_append]
        rfl
      | cons d t =>
        have hdne : ¬ d = '.' := by
          rw [hdw] at hnd
          simpa using hnd
        simp only [List.cons_append]
        split
        · rename_i heq
          cases heq
          exact absurd rfl hdne
        · rfl

theorem firstLine_seg (seg r : List Char) (h : ∀ c ∈ seg, c ≠ '\n') :
    firstLine (seg ++ '\n' :: r) = seg := by
  unfold firstLine
  rw [List.takeWhile_append_of_pos (by
    intro a ha
    simpa using h a ha)]
  simp

theorem firstLine_all (l : List Char) (h : ∀ c ∈ l, c ≠ '\n') :
    firstLine l = l := by
  unfold firstLine
  rw [List.takeWhile_eq_self_iff.mpr]
  intro a ha
  simpa using h a ha

theorem dropFirstLine_seg (seg r : List Char) (hne : seg ≠ [])
    (h : ∀ c ∈ seg, c ≠ '\n') :
    dropFirstLine (seg ++ '\n' :: r) = r := by
  cases seg with
  | nil => exact absurd rfl hne
  | cons c s =>
    have hc : c ≠ '\n' := h c (List.mem_cons_self c s)
    have htw : ((c :: s) ++ '\n' :: r).takeWhile (fun x => !(x = '\n')) =
        c :: s := by
      rw [List.takeWhile_append_of_pos (by
        intro a ha
        simpa using h a ha)]
      simp
    unfold dropFirstLine
    simp only [List.cons_append, if_neg hc]
    rw [show (c :: (s ++ '\n' :: r)) = (c :: s) ++ '\n' :: r from rfl, htw]
    rw [show ((c :: s) ++ '\n' :: r).drop (c :: s).length = '\n' :: r from
      List.drop_left _ _]
    rfl

theorem jsTrim_ne_nil (l : List Char) (hne : l ≠ [])
    (hh : ∀ c, l.head? = some c → jsIsSpace c = false) :
    jsTrim l ≠ [] := by
  cases l with
  | nil => exact absurd rfl hne
  | cons c t =>
    have hcs : jsIsSpace c = false := hh c rfl
    unfold jsTrim
    rw [List.dropWhile_cons, hcs]
    simp only [Bool.false_eq_true, if_false, ne_eq, List.reverse_eq_nil_iff]
    intro hcon
    have := List.dropWhile_eq_nil_iff.mp hcon
    have hmem : c ∈ (c :: t).reverse := by simp
    have := this c hmem
    rw [hcs] at this
    cases this

theorem jsTrim_head_id (l : List Char)
    (hh : ∀ c, l.head? = some c → jsIsSpace c = false) :
    (l.dropWhile jsIsSpace) = l := by
  cases l with
  | nil => rfl
  | cons c t =>
    rw [List.dropWhile_cons, hh c rfl]
    simp

theorem splitGo_seg_all (body : List Char → Option Nat) (seg cur acc)
    (h : ∀ c ∈ seg, c ≠ '\n') :
    splitGo body cur acc seg = acc ++ [cur ++ seg] := by
  conv_lhs => rw [← List.append_nil seg]
  rw [splitGo_seg body seg cur acc [] h, splitGo_nil]

theorem C2sections (para i1 i2 i3 : List Char)
    (hpn : ∀ c ∈ para, c ≠ '\n')
    (hph : para.head? ≠ some '#')
    (hpd : startsNumDotB para = false)
    (h1n : ∀ c ∈ i1, c ≠ '\n')
    (h2n : ∀ c ∈ i2, c ≠ '\n')
    (h3n : ∀ c ∈ i3, c ≠ '\n') :
    splitTop (("## Explanation\n").toList ++ para ++
        ("\n\n## Misconceptions\n* ").toList ++ i1 ++ ("\n* ").toList ++ i2 ++
        ("\n* ").toList ++ i3) =
      [[],
       ("Explanation").toList ++ ('\n' :: (para ++ ['\n'])),
       ("Misconceptions").toList ++ ('\n' :: ('*' :: ' ' ::
         (i1 ++ ('\n' :: ('*' :: ' ' :: (i2 ++ ('\n' :: ('*' :: ' ' :: i3))))))))] := by
  have hL : ("## Explanation\n").toList ++ para ++
      ("\n\n## Misconceptions\n* ").toList ++ i1 ++ ("\n* ").toList ++ i2 ++
      ("\n* ").toList ++ i3 =
      ("## Explanation\n").toList ++ (para ++ (("\n\n## Misconceptions\n* ").toList ++
        (i1 ++ (("\n* ").toList ++ (i2 ++ (("\n* ").toList ++ i3)))))) := by
    simp [List.append_assoc]
  rw [hL]
  unfold splitTop jsSplitS
  rw [show sepBodyLen (("## Explanation\n").toList ++ (para ++
      (("\n\n## Misconceptions\n* ").toList ++
        (i1 ++ (("\n* ").toList ++ (i2 ++ (("\n* ").toList ++ i3))))))) = some 3 from
    sepBodyLen_heading 'E' _ (by decide)]
  show splitGo sepBodyLen [] [[]] (("Explanation").toList ++ ('\n' :: (para ++
      ('\n' :: ('\n' :: (("## Misconceptions\n* ").toList ++
        (i1 ++ (("\n* ").toList ++ (i2 ++ (("\n* ").toList ++ i3)))))))))) = _
  rw [splitGo_seg sepBodyLen ("Explanation").toList [] [[]] _ (by decide)]
  rw [splitGo_nl_none sepBodyLen _ [[]] _
    (sepBodyLen_para para _ hph hpd)]
  rw [splitGo_seg sepBodyLen para _ [[]] _ hpn]
  rw [splitGo_nl_none sepBodyLen _ [[]] _ (sepBodyLen_nl _)]
  show splitGo sepBodyLen _ [[]] ('\n' :: ('#' :: '#' :: ' ' :: 'M' ::
      (("isconceptions\n* ").toList ++
        (i1 ++ (("\n* ").toList ++ (i2 ++ (("\n* ").toList ++ i3))))))) = _
  rw [splitGo_nl_some sepBodyLen _ [[]] _ 3
    (sepBodyLen_heading 'M' _ (by decide))]
  show splitGo sepBodyLen [] _ (("Misconceptions").toList ++ ('\n' :: ('*' :: ' ' ::
      (i1 ++ ('\n' :: ('*' :: ' ' :: (i2 ++ ('\n' :: ('*' :: ' ' :: i3))))))))) = _
  rw [splitGo_seg sepBodyLen ("Misconceptions").toList [] _ _ (by decide)]
  rw [splitGo_nl_none sepBodyLen _ _ _ (sepBodyLen_star _)]
  rw [splitGo_cons_ne sepBodyLen _ _ '*' _ (by decide)]
  rw [splitGo_cons_ne sepBodyLen _ _ ' ' _ (by decide)]
  rw [splitGo_seg sepBodyLen i1 _ _ _ h1n]
  show splitGo sepBodyLen _ _ ('\n' :: ('*' :: ' ' ::
      (i2 ++ ('\n' :: ('*' :: ' ' :: i3))))) = _
  rw [splitGo_nl_none sepBodyLen _ _ _ (sepBodyLen_star _)]
  rw [splitGo_cons_ne sepBodyLen _ _ '*' _ (by decide)]
  rw [splitGo_cons_ne sepBodyLen _ _ ' ' _ (by decide)]
  rw [splitGo_seg sepBodyLen i2 _ _ _ h2n]
  show splitGo sepBodyLen _ _ ('\n' :: ('*' :: ' ' :: i3)) = _
  rw [splitGo_nl_none sepBodyLen _ _ _ (sepBodyLen_star _)]
  rw [splitGo_cons_ne sepBodyLen _ _ '*' _ (by decide)]
  rw [splitGo_cons_ne sepBodyLen _ _ ' ' _ (by decide)]
  rw [splitGo_seg_all sepBodyLen i3 _ _ h3n]
  simp [List.append_assoc]

theorem C2items (i1 i2 i3 : List Char)
    (h1n : ∀ c ∈ i1, c ≠ '\n') (h1e : i1 ≠ [])
    (h1s : ∀ c, i1.head? = some c → jsIsSpace c = false)
    (h2n : ∀ c ∈ i2, c ≠ '\n') (h2e : i2 ≠ [])
    (h2s : ∀ c, i2.head? = some c → jsIsSpace c = false)
    (h3n : ∀ c ∈ i3, c ≠ '\n') (h3e : i3 ≠ [])
    (h3s : ∀ c, i3.head? = some c → jsIsSpace c = false) :
    splitInner (("Misconceptions").toList ++ ('\n' :: ('*' :: ' ' ::
      (i1 ++ ('\n' :: ('*' :: ' ' :: (i2 ++ ('\n' :: ('*' :: ' ' :: i3))))))))) =
    [("Misconceptions").toList, i1, i2, i3] := by
  obtain ⟨c1, t1, rfl⟩ : ∃ c t, i1 = c :: t := by
    cases i1 with
    | nil => exact absurd rfl h1e
    | cons c t => exact ⟨c, t, rfl⟩
  obtain ⟨c2, t2, rfl⟩ : ∃ c t, i2 = c :: t := by
    cases i2 with
    | nil => exact absurd rfl h2e
    | cons c t => exact ⟨c, t, rfl⟩
  obtain ⟨c3, t3, rfl⟩ : ∃ c t, i3 = c :: t := by
    cases i3 with
    | nil => exact absurd rfl h3e
    | cons c t => exact ⟨c, t, rfl⟩
  have hs1 : jsIsSpace c1 = false := h1s c1 rfl
  have hs2 : jsIsSpace c2 = false := h2s c2 rfl
  have hs3 : jsIsSpace c3 = false := h3s c3 rfl
  unfold splitInner jsSplitS
  rw [show innerBodyLen (("Misconceptions").toList ++ ('\n' :: ('*' :: ' ' ::
      ((c1 :: t1) ++ ('\n' :: ('*' :: ' ' ::
        ((c2 :: t2) ++ ('\n' :: ('*' :: ' ' :: (c3 :: t3)))))))))) = none from
    innerBodyLen_letter 'M' _ (by decide) (by decide) (by decide)]
  rw [splitGo_seg innerBodyLen ("Misconceptions").toList [] [] _ (by decide)]
  show splitGo innerBodyLen _ [] ('\n' :: ('*' :: ' ' :: c1 :: (t1 ++
      ('\n' :: ('*' :: ' ' :: c2 :: (t2 ++
        ('\n' :: ('*' :: ' ' :: c3 :: t3)))))))) = _
  rw [splitGo_nl_some innerBodyLen _ [] _ 2 (innerBodyLen_star c1 _ hs1)]
  show splitGo innerBodyLen [] _ ((c1 :: t1) ++ ('\n' :: ('*' :: ' ' :: c2 ::
      (t2 ++ ('\n' :: ('*' :: ' ' :: c3 :: t3)))))) = _
  rw [splitGo_seg innerBodyLen (c1 :: t1) [] _ _ h1n]
  rw [splitGo_nl_some innerBodyLen _ _ _ 2 (innerBodyLen_star c2 _ hs2)]
  show splitGo innerBodyLen [] _ ((c2 :: t2) ++ ('\n' :: ('*' :: ' ' :: c3 :: t3))) = _
  rw [splitGo_seg innerBodyLen (c2 :: t2) [] _ _ h2n]
  rw [splitGo_nl_some innerBodyLen _ _ _ 2 (innerBodyLen_star c3 _ hs3)]
  show splitGo innerBodyLen [] _ (c3 :: t3) = _
  rw [splitGo_seg_all innerBodyLen (c3 :: t3) [] _ h3n]
  simp

theorem parseAIResponseL_expl_eq (l : List Char) :
    (parseAIResponseL l).explanation = explFromSections (splitTop l) := rfl

theorem parseAIResponseL_mis_eq (l : List Char) :
    (parseAIResponseL l).misconceptions =
      (if (misFromSections (splitTop l)).all (fun m => m.isEmpty) then
        pad3 (((((splitPar l).filter
          (fun p => decide (50 < (jsTrim p).length) && testAny parKeys p)).take 3).map
            jsTrim))
      else misFromSections (splitTop l)) := rfl

/-- C2 (amended): for free text "## Explanation" + paragraph +
"## Misconceptions" + three bulleted items, the paragraph (trimmed, with
the heading stripped) becomes the explanation and the three items, in
order and trimmed, become the three misconceptions. -/
theorem C2_bulleted_extraction (para i1 i2 i3 : List Char)
    (hpn : ∀ c ∈ para, c ≠ '\n')
    (hph : para.head? ≠ some '#')
    (hpd : startsNumDotB para = false)
    (h1n : ∀ c ∈ i1, c ≠ '\n') (h1e : i1 ≠ [])
    (h1s : ∀ c, i1.head? = some c → jsIsSpace c = false)
    (h2n : ∀ c ∈ i2, c ≠ '\n') (h2e : i2 ≠ [])
    (h2s : ∀ c, i2.head? = some c → jsIsSpace c = false)
    (h3n : ∀ c ∈ i3, c ≠ '\n') (h3e : i3 ≠ [])
    (h3s : ∀ c, i3.head? = some c → jsIsSpace c = false) :
    (parseAIResponseL (("## Explanation\n").toList ++ para ++
      ("\n\n## Misconceptions\n* ").toList ++ i1 ++ ("\n* ").toList ++ i2 ++
      ("\n* ").toList ++ i3)).explanation = jsTrim para ∧
    (parseAIResponseL (("## Explanation\n").toList ++ para ++
      ("\n\n## Misconceptions\n* ").toList ++ i1 ++ ("\n* ").toList ++ i2 ++
      ("\n* ").toList ++ i3)).misconceptions =
      [jsTrim i1, jsTrim i2, jsTrim i3] := by
  have hsec := C2sections para i1 i2 i3 hpn hph hpd h1n h2n h3n
  have hfl2 : firstLine (("Explanation").toList ++ ('\n' :: (para ++ ['\n']))) =
      ("Explanation").toList := firstLine_seg _ _ (by decide)
  have hfl3 : firstLine (("Misconceptions").toList ++ ('\n' :: ('*' :: ' ' ::
      (i1 ++ ('\n' :: ('*' :: ' ' :: (i2 ++ ('\n' :: ('*' :: ' ' :: i3))))))))) =
      ("Misconceptions").toList := firstLine_seg _ _ (by decide)
  have k1 : (jsTrim i1).isEmpty = false := by
    have h := jsTrim_ne_nil i1 h1e h1s
    cases hj : jsTrim i1 with
    | nil => exact absurd hj h
    | cons a b => rfl
  have k2 : (jsTrim i2).isEmpty = false := by
    have h := jsTrim_ne_nil i2 h2e h2s
    cases hj : jsTrim i2 with
    | nil => exact absurd hj h
    | cons a b => rfl
  have k3 : (jsTrim i3).isEmpty = false := by
    have h := jsTrim_ne_nil i3 h3e h3s
    cases hj : jsTrim i3 with
    | nil => exact absurd hj h
    | cons a b => rfl
  have hexpl : explFromSections
      [[], ("Explanation").toList ++ ('\n' :: (para ++ ['\n'])),
       ("Misconceptions").toList ++ ('\n' :: ('*' :: ' ' ::
         (i1 ++ ('\n' :: ('*' :: ' ' :: (i2 ++ ('\n' :: ('*' :: ' ' :: i3))))))))] =
      jsTrim para := by
    unfold explFromSections
    rw [List.find?_cons_of_neg _ (by decide),
      List.find?_cons_of_pos _ (by rw [hfl2]; decide)]
    show jsTrim (dropFirstLine (("Explanation").toList ++
      ('\n' :: (para ++ ['\n'])))) = jsTrim para
    rw [dropFirstLine_seg ("Explanation").toList (para ++ ['\n'])
      (by decide) (by decide)]
    exact jsTrim_append_space para '\n' (by decide)
  have hmis : misFromSections
      [[], ("Explanation").toList ++ ('\n' :: (para ++ ['\n'])),
       ("Misconceptions").toList ++ ('\n' :: ('*' :: ' ' ::
         (i1 ++ ('\n' :: ('*' :: ' ' :: (i2 ++ ('\n' :: ('*' :: ' ' :: i3))))))))] =
      [jsTrim i1, jsTrim i2, jsTrim i3] := by
    unfold misFromSections
    rw [List.find?_cons_of_neg _ (by decide),
      List.find?_cons_of_neg _ (by rw [hfl2]; decide),
      List.find?_cons_of_pos _ (by rw [hfl3]; decide)]
    show pad3 (((((splitInner (("Misconceptions").toList ++ ('\n' :: ('*' :: ' ' ::
      (i1 ++ ('\n' :: ('*' :: ' ' :: (i2 ++ ('\n' :: ('*' :: ' ' :: i3)))))))))).drop 1).filter
        (fun i => !(jsTrim i).isEmpty)).map jsTrim)) = _
    rw [C2items i1 i2 i3 h1n h1e h1s h2n h2e h2s h3n h3e h3s]
    simp only [List.drop_succ_cons, List.drop_zero, List.filter, k1, k2, k3,
      Bool.not_false, List.map_cons, List.map_nil, pad3, List.getD]
    simp
  refine ⟨?_, ?_⟩
  · rw [parseAIResponseL_expl_eq, hsec]
    exact hexpl
  · rw [parseAIResponseL_mis_eq, hsec, hmis]
    rw [if_neg (by simp [k1])]

/-- C2 counterexample: with three NUMBERED items under
"## Misconceptions", the numbered markers are consumed by the top-level
section split, so the three items are never extracted as the three
misconceptions; at this concrete input the misconceptions end up as three
empty strings — refuting the claim. -/
theorem C2_counterexample :
    (parseAIResponseL ("## Explanation\nThe paragraph.\n\n## Misconceptions\n1. First\n2. Second\n3. Third").toList).explanation =
      ("The paragraph.").toList ∧
    (parseAIResponseL ("## Explanation\nThe paragraph.\n\n## Misconceptions\n1. First\n2. Second\n3. Third").toList).misconceptions =
      [[], [], []] ∧
    [[], [], []] ≠ [("First").toList, ("Second").toList, ("Third").toList] := by
  refine ⟨by decide, by decide, by decide⟩

/-- C2 witness: the amended bulleted-items rule evaluated at concrete
strings. -/
theorem C2_witness :
    (parseAIResponseL (("## Explanation\n").toList ++
      ("The area grows quadratically with the side length.").toList ++
      ("\n\n## Misconceptions\n* ").toList ++
      ("Students double instead of squaring").toList ++ ("\n* ").toList ++
      ("Students confuse area with perimeter").toList ++ ("\n* ").toList ++
      ("Students forget the units").toList)).explanation =
      jsTrim ("The area grows quadratically with the side length.").toList ∧
    (parseAIResponseL (("## Explanation\n").toList ++
      ("The area grows quadratically with the side length.").toList ++
      ("\n\n## Misconceptions\n* ").toList ++
      ("Students double instead of squaring").toList ++ ("\n* ").toList ++
      ("Students confuse area with perimeter").toList ++ ("\n* ").toList ++
      ("Students forget the units").toList)).misconceptions =
      [jsTrim ("Students double instead of squaring").toList,
       jsTrim ("Students confuse area with perimeter").toList,
       jsTrim ("Students forget the units").toList] :=
  C2_bulleted_extraction
    ("The area grows quadratically with the side length.").toList
    ("Students double instead of squaring").toList
    ("Students confuse area with perimeter").toList
    ("Students forget the units").toList
    (by decide) (by decide) (by decide)
    (by decide) (by decide) (by decide)
    (by decide) (by decide) (by decide)
    (by decide) (by decide) (by decide)
